import Mathlib

/-!
Shallow embedding of the job-processing core of the bug-reporting system:
the worker poll loop (`packages/worker/src/index.ts`, `Worker.processNextJob`),
the bug-submission endpoint (`packages/server/src/index.ts`, POST /api/bugs),
context discovery (`packages/worker/src/context.ts`, `discoverCodeContext`)
and the Gemini response parser (`packages/worker/src/providers/gemini.ts`,
`GeminiProvider.parseResponse`).

Store rows are embedded as Lean structures; the Prisma store is a pair of
lists.  Statuses are the literal strings used by the code.  External effects
(the AI provider call, the `new URL` parse, the file-system walk, and the
possibility that an individual store write throws) are passed in as explicit
outcome parameters, so each code path of the TypeScript try/catch blocks is a
branch of a total Lean function.  A trace of store writes and provider calls
is returned alongside the final store to state ordering properties.
-/

/-- An analysis result as returned by an AI provider
(`AnalysisResult` in `providers/ai.ts`).  `confidence` is embedded as a
rational. -/
structure AnalysisResult where
  analysis : String
  diff : String
  confidence : ℚ
  provider : String
deriving Repr, DecidableEq

/-- A row of the `jobs` table.  The code stores `payload` as a JSON string
`{"bugId": ...}` and parses it with `JSON.parse`; we carry the parsed result:
`payloadBugId = none` models a payload whose parse yields no usable `bugId`
(missing field or malformed JSON), `some b` a payload carrying bug id `b`. -/
structure Job where
  id : Nat
  type : String
  payloadBugId : Option Nat
  status : String
  error : Option String
  createdAt : Nat
deriving Repr, DecidableEq

/-- A row of the `bugs` table.  Telemetry fields (steps, expected, actual,
severity, userAgent, viewport, consoleLogs, networkErrors, screenshot,
projectId) are never read or written by the job-processing core except to be
forwarded opaquely to the provider, so they are omitted from the embedding. -/
structure Bug where
  id : Nat
  title : String
  url : String
  status : String
  aiAnalysis : Option String
  aiPatchDiff : Option String
  confidence : Option ℚ
  aiProvider : Option String
  createdAt : Nat
deriving Repr, DecidableEq

/-- The shared Prisma store: the `bugs` and `jobs` tables. -/
structure Store where
  bugs : List Bug
  jobs : List Job
deriving Repr, DecidableEq

/-- One observable action of a pipeline cycle, used to state ordering
properties: a successful job-status write, a successful bug-status write, or
an invocation of the AI provider. -/
inductive Event where
  | jobWrite (id : Nat) (status : String)
  | bugWrite (id : Nat) (status : String)
  | providerCall
deriving Repr, DecidableEq

/-- Outcome of the AI provider call `this.provider.analyze(...)`: it either
resolves with an `AnalysisResult` or rejects with an error message. -/
inductive ProviderOutcome where
  | success (r : AnalysisResult)
  | failure (msg : String)
deriving Repr, DecidableEq

/-- Whether each store write of one `processNextJob` cycle succeeds or throws
(the store is external and any awaited write may reject).  `true` means the
write is applied; `false` means it throws at that point of the control flow.
`allWritesOk` is the normal schedule. -/
structure WriteSchedule where
  markProcessingOk : Bool
  jobDoneIdemOk : Bool
  bugAnalyzedOk : Bool
  jobDoneOk : Bool
  jobErrorOk : Bool
  bugErrorOk : Bool
deriving Repr, DecidableEq

/-- The normal schedule: every store write succeeds. -/
def allWritesOk : WriteSchedule :=
  { markProcessingOk := true, jobDoneIdemOk := true, bugAnalyzedOk := true,
    jobDoneOk := true, jobErrorOk := true, bugErrorOk := true }

/-- `prisma.job.update({ where: { id }, data: { status } })`: an unconditional
update by id — every row with that id gets the new status, with no guard on
the current status. -/
def updateJobStatusL (js : List Job) (i : Nat) (st : String) : List Job :=
  js.map fun j => if j.id = i then { j with status := st } else j

/-- `prisma.job.update({ where: { id }, data: { status: 'error', error } })`
from the catch block (worker lines 166-171): unconditional by id. -/
def updateJobErrorL (js : List Job) (i : Nat) (msg : String) : List Job :=
  js.map fun j => if j.id = i then { j with status := "error", error := some msg } else j

/-- `prisma.bug.update({ where: { id }, data: { status } })` from the catch
block (worker lines 179-181): only the status field is written. -/
def updateBugStatusL (bs : List Bug) (i : Nat) (st : String) : List Bug :=
  bs.map fun b => if b.id = i then { b with status := st } else b

/-- The worker's diff persistence rule (line 146):
`aiPatchDiff: result.diff === 'NONE' ? null : result.diff`. -/
def persistAiPatchDiff (d : String) : Option String :=
  if d = "NONE" then none else some d

/-- The success-path bug write (worker lines 141-150): sets status `analyzed`
and the four analysis fields. -/
def updateBugAnalyzedL (bs : List Bug) (i : Nat) (r : AnalysisResult) : List Bug :=
  bs.map fun b =>
    if b.id = i then
      { b with status := "analyzed", aiAnalysis := some r.analysis,
               aiPatchDiff := persistAiPatchDiff r.diff,
               confidence := some r.confidence, aiProvider := some r.provider }
    else b

/-- `prisma.bug.findUnique({ where: { id } })`. -/
def findBug (bs : List Bug) (i : Nat) : Option Bug :=
  bs.find? fun b => b.id == i

/-- The row with the least `createdAt` (ties resolved to the earlier row),
i.e. `ORDER BY createdAt ASC` + `LIMIT 1` over a candidate list. -/
def earliestJob : List Job → Option Job
  | [] => none
  | j :: js =>
    match earliestJob js with
    | none => some j
    | some k => if j.createdAt ≤ k.createdAt then some j else some k

/-- `prisma.job.findFirst({ where: { status: 'queued', type: 'ANALYZE_BUG' },
orderBy: { createdAt: 'asc' } })` (worker lines 63-66). -/
def findFirstQueuedJob (js : List Job) : Option Job :=
  earliestJob (js.filter fun j => j.status == "queued" && j.type == "ANALYZE_BUG")

/-- JS truthiness of `bug.aiAnalysis` (line 99): non-null and non-empty. -/
def aiAnalysisTruthy (b : Bug) : Prop :=
  b.aiAnalysis.getD "" ≠ ""

instance (b : Bug) : Decidable (aiAnalysisTruthy b) := by
  unfold aiAnalysisTruthy; infer_instance

/-- The catch block of `processNextJob` (worker lines 161-186): if a job was
selected, write status `error` and the message onto it; if a bugId was parsed,
write status `error` onto the bug.  Each of the two writes carries its own
`.catch`, so a failing write is swallowed (no event, store unchanged). -/
def handleProcessingError (s : Store) (jobId : Option Nat) (bugId : Option Nat)
    (msg : String) (ws : WriteSchedule) : Store × List Event :=
  let (s1, t1) :=
    match jobId with
    | none => (s, ([] : List Event))
    | some jid =>
      if ws.jobErrorOk then
        ({ s with jobs := updateJobErrorL s.jobs jid msg }, [Event.jobWrite jid "error"])
      else (s, [])
  let (s2, t2) :=
    match bugId with
    | none => (s1, ([] : List Event))
    | some bid =>
      if ws.bugErrorOk then
        ({ s1 with bugs := updateBugStatusL s1.bugs bid "error" }, [Event.bugWrite bid "error"])
      else (s1, [])
  (s2, t1 ++ t2)

/-- One cycle of `Worker.processNextJob` (worker lines 57-187), sequential
semantics: select the oldest queued ANALYZE_BUG job, mark it processing,
parse the payload, load the bug, idempotency check, context discovery
(`ctx`), provider call (`prov`), persist results, mark done; any thrown error
falls into `handleProcessingError`.  `ctx` is the outcome of
`discoverCodeContext(bug.url)` (which can throw, see `discoverCodeContext`
below); `prov` the outcome of the provider call; `ws` says which store writes
succeed.  Returns the final store and the trace of events. -/
def processNextJob (s : Store) (ctx : Except String (List String))
    (prov : ProviderOutcome) (ws : WriteSchedule) : Store × List Event :=
  match findFirstQueuedJob s.jobs with
  | none => (s, [])
  | some job =>
    if ws.markProcessingOk then
      let s1 : Store := { s with jobs := updateJobStatusL s.jobs job.id "processing" }
      let tr1 : List Event := [Event.jobWrite job.id "processing"]
      match job.payloadBugId with
      | none =>
        let (s2, t2) := handleProcessingError s1 (some job.id) none
          "Job payload missing bugId" ws
        (s2, tr1 ++ t2)
      | some bid =>
        match findBug s1.bugs bid with
        | none =>
          let (s2, t2) := handleProcessingError s1 (some job.id) (some bid)
            "Bug not found" ws
          (s2, tr1 ++ t2)
        | some bug =>
          if bug.status = "analyzed" ∧ aiAnalysisTruthy bug then
            if ws.jobDoneIdemOk then
              ({ s1 with jobs := updateJobStatusL s1.jobs job.id "done" },
               tr1 ++ [Event.jobWrite job.id "done"])
            else
              let (s2, t2) := handleProcessingError s1 (some job.id) (some bid)
                "job done write failed" ws
              (s2, tr1 ++ t2)
          else
            match ctx with
            | Except.error msg =>
              let (s2, t2) := handleProcessingError s1 (some job.id) (some bid) msg ws
              (s2, tr1 ++ t2)
            | Except.ok _paths =>
              match prov with
              | ProviderOutcome.failure msg =>
                let (s2, t2) := handleProcessingError s1 (some job.id) (some bid) msg ws
                (s2, tr1 ++ [Event.providerCall] ++ t2)
              | ProviderOutcome.success r =>
                if ws.bugAnalyzedOk then
                  let s2 : Store := { s1 with bugs := updateBugAnalyzedL s1.bugs bid r }
                  let tr2 : List Event :=
                    tr1 ++ [Event.providerCall, Event.bugWrite bid "analyzed"]
                  if ws.jobDoneOk then
                    ({ s2 with jobs := updateJobStatusL s2.jobs job.id "done" },
                     tr2 ++ [Event.jobWrite job.id "done"])
                  else
                    let (s3, t3) := handleProcessingError s2 (some job.id) (some bid)
                      "job done write failed" ws
                    (s3, tr2 ++ t3)
                else
                  let (s2, t2) := handleProcessingError s1 (some job.id) (some bid)
                    "bug write failed" ws
                  (s2, tr1 ++ [Event.providerCall] ++ t2)
    else
      handleProcessingError s (some job.id) none "mark processing failed" ws

/-- The claim step in isolation (worker lines 63-76): read the oldest queued
job, then — as a separate, unconditional write — mark it processing.  Returns
the job handed to the caller and the updated store. -/
def claimNext (s : Store) : Option Job × Store :=
  match findFirstQueuedJob s.jobs with
  | none => (none, s)
  | some j => (some j, { s with jobs := updateJobStatusL s.jobs j.id "processing" })

/-- `n` sequential claim cycles, collecting the jobs handed out. -/
def claimSeq (s : Store) : Nat → List Job
  | 0 => []
  | n + 1 =>
    match claimNext s with
    | (none, _) => []
    | (some j, s1) => j :: claimSeq s1 n

/-- Two workers racing the claim code (worker lines 63-76) under the
interleaving read₁, read₂, write₁, write₂ — possible because the `findFirst`
and the `update` are two separate awaited store queries, not one conditional
update.  Returns the job each worker's local `job` variable holds (the job it
received and proceeds to process) and the final store. -/
def interleavedClaims (s : Store) : Option Job × Option Job × Store :=
  let r1 := findFirstQueuedJob s.jobs
  let r2 := findFirstQueuedJob s.jobs
  let s1 :=
    match r1 with
    | some j => { s with jobs := updateJobStatusL s.jobs j.id "processing" }
    | none => s
  let s2 :=
    match r2 with
    | some j => { s1 with jobs := updateJobStatusL s1.jobs j.id "processing" }
    | none => s1
  (r1, r2, s2)

/-- Modelled from the spec: the claim write as the spec demands it — "a
single conditional update (claim fails silently, returning none-equivalent,
if another consumer already claimed it)".  The transition is applied only if
the row is still `queued`; the Bool reports whether this caller won. -/
def conditionalClaimWrite (s : Store) (jid : Nat) : Store × Bool :=
  match s.jobs.find? (fun j => j.id == jid) with
  | some j =>
    if j.status = "queued" then
      ({ s with jobs := updateJobStatusL s.jobs jid "processing" }, true)
    else (s, false)
  | none => (s, false)

/-- The same racing interleaving as `interleavedClaims`, but with the
spec-mandated conditional claim write; the Bools report which callers
received the job. -/
def interleavedConditionalClaims (s : Store) : Bool × Bool × Store :=
  let r1 := findFirstQueuedJob s.jobs
  let r2 := findFirstQueuedJob s.jobs
  let p1 :=
    match r1 with
    | some j => conditionalClaimWrite s j.id
    | none => (s, false)
  let p2 :=
    match r2 with
    | some j => conditionalClaimWrite p1.1 j.id
    | none => (p1.1, false)
  (p1.2, p2.2, p2.1)

/-- Whether each of the two store writes of the POST /api/bugs handler
succeeds or throws. -/
structure SubmitSchedule where
  bugCreateOk : Bool
  jobCreateOk : Bool
deriving Repr, DecidableEq

/-- The POST /api/bugs handler (server `index.ts` lines 120-172), after
auth and payload validation: `prisma.bug.create` with status `queued`, then —
a separate write, not wrapped in a transaction — `prisma.job.create` with
type ANALYZE_BUG, payload `{bugId}`, status `queued`.  Any throw is caught
and answered with HTTP 500; nothing already written is rolled back.  Returns
the store and the HTTP status code. -/
def createBugRoute (s : Store) (title url : String) (newBugId newJobId now : Nat)
    (sch : SubmitSchedule) : Store × Nat :=
  if sch.bugCreateOk then
    let bug : Bug :=
      { id := newBugId, title := title, url := url, status := "queued",
        aiAnalysis := none, aiPatchDiff := none, confidence := none,
        aiProvider := none, createdAt := now }
    let s1 : Store := { s with bugs := s.bugs ++ [bug] }
    if sch.jobCreateOk then
      let job : Job :=
        { id := newJobId, type := "ANALYZE_BUG", payloadBugId := some newBugId,
          status := "queued", error := none, createdAt := now }
      ({ s1 with jobs := s1.jobs ++ [job] }, 201)
    else (s1, 500)
  else (s, 500)

/-- Stable insertion into a list sorted by score descending, matching the
stable JS `sort((a, b) => b.score - a.score)`. -/
def insertByScoreDesc (x : String × Int) : List (String × Int) → List (String × Int)
  | [] => [x]
  | y :: ys => if y.2 ≤ x.2 then x :: y :: ys else y :: insertByScoreDesc x ys

/-- `relevantFiles.sort((a, b) => b.score - a.score)` (context.ts line 19). -/
def sortByScoreDesc (l : List (String × Int)) : List (String × Int) :=
  l.foldr insertByScoreDesc []

/-- `.filter((path, index, array) => array.indexOf(path) === index)`
(context.ts line 22): keep the first occurrence of each path. -/
def dedupKeepFirst : List String → List String
  | [] => []
  | x :: xs => x :: dedupKeepFirst (xs.filter (· != x))
termination_by l => l.length
decreasing_by
  simp_wf
  exact Nat.lt_succ_of_le (List.length_filter_le _ _)

/-- `discoverCodeContext(bugUrl)` (context.ts lines 4-23).  Two external
effects are passed in as outcomes: `urlParse` is `new URL(bugUrl).pathname`
split into segments — this call sits OUTSIDE any try/catch and throws on an
invalid URL, which the function propagates; `walk` is the
`walkDirectory` file-system recursion (including its per-file relevance
scoring), which IS wrapped in try/catch: on error the function returns `[]`.
On success the scored files are sorted by score descending, truncated to 30,
mapped to their paths and deduplicated. -/
def discoverCodeContext (urlParse : Except String (List String))
    (walk : Except String (List (String × Int))) : Except String (List String) :=
  match urlParse with
  | Except.error e => Except.error e
  | Except.ok _segments =>
    match walk with
    | Except.error _ => Except.ok []
    | Except.ok files =>
      Except.ok (dedupKeepFirst (((sortByScoreDesc files).take 30).map Prod.fst))

/-- JS `toLowerCase()` on the patch section (gemini.ts line 155), embedded
as a character-wise lowering of the string's characters. -/
def strToLower (s : String) : String :=
  ⟨s.data.map Char.toLower⟩

/-- `GeminiProvider.parseResponse` (gemini.ts lines 137-189).  The regex
extraction of the `## Analysis` / `## Patch` / `## Confidence` sections and
`parseFloat` are string-library externals passed in as already-extracted
inputs: `analysisSection` and `patchSection` are the trimmed section contents
(none when the section is absent), `confidenceVal` is the `parseFloat` of the
trimmed confidence section (none when the section is absent or the parse is
NaN). -/
def parseResponse (content : String) (analysisSection patchSection : Option String)
    (confidenceVal : Option ℚ) : AnalysisResult :=
  let analysis :=
    match analysisSection with
    | some a => a
    | none => ""
  let diff :=
    match patchSection with
    | some p => if strToLower p ≠ "none" ∧ 0 < p.length then p else "NONE"
    | none => "NONE"
  let confidence :=
    match confidenceVal with
    | some v => if 1 < v then v / 100 else v
    | none => (1 : ℚ) / 2
  let analysis' := if analysis = "" then content.trim else analysis
  let confidence' := max ((1 : ℚ) / 10) (min 1 confidence)
  { analysis := analysis',
    diff := if diff = "" then "NONE" else diff,
    confidence := confidence',
    provider := "gemini" }

/-- A queued ANALYZE_BUG job referencing bug 10, used as concrete input. -/
def job1 : Job :=
  { id := 1, type := "ANALYZE_BUG", payloadBugId := some 10, status := "queued",
    error := none, createdAt := 0 }

/-- A freshly submitted bug, used as concrete input. -/
def bug10 : Bug :=
  { id := 10, title := "Checkout button unresponsive",
    url := "http://localhost:3000/checkout", status := "queued",
    aiAnalysis := none, aiPatchDiff := none, confidence := none,
    aiProvider := none, createdAt := 0 }

/-- One queued bug with its one queued job. -/
def demoStore : Store := { bugs := [bug10], jobs := [job1] }

/-- The same bug already analyzed with a non-empty analysis. -/
def analyzedBug : Bug :=
  { bug10 with status := "analyzed", aiAnalysis := some "Root cause: handler detached." }

/-- An already-analyzed bug whose job is queued again. -/
def idemStore : Store := { bugs := [analyzedBug], jobs := [job1] }

/-- The job after reaching the terminal `done` state. -/
def doneJob : Job := { job1 with status := "done" }

/-- A stub provider result. -/
def stubResult : AnalysisResult :=
  { analysis := "ok", diff := "NONE", confidence := 9 / 10, provider := "stub" }

/-- Earlier-created queued job (createdAt 1). -/
def jobA : Job :=
  { id := 1, type := "ANALYZE_BUG", payloadBugId := some 10, status := "queued",
    error := none, createdAt := 1 }

/-- Later-created queued job (createdAt 2). -/
def jobB : Job :=
  { id := 2, type := "ANALYZE_BUG", payloadBugId := some 11, status := "queued",
    error := none, createdAt := 2 }

/-- A job returned by `earliestJob` is an element of the list. -/
theorem earliestJob_mem {js : List Job} {j : Job} (h : earliestJob js = some j) :
    j ∈ js := by
  induction js with
  | nil => simp [earliestJob] at h
  | cons a l ih =>
    cases hl : earliestJob l with
    | none =>
      simp only [earliestJob, hl] at h
      injection h with h
      exact h ▸ List.mem_cons_self a l
    | some k =>
      simp only [earliestJob, hl] at h
      by_cases hc : a.createdAt ≤ k.createdAt
      · rw [if_pos hc] at h
        injection h with h
        exact h ▸ List.mem_cons_self a l
      · rw [if_neg hc] at h
        injection h with h
        exact List.mem_cons_of_mem a (ih (h ▸ hl))

/-- On a strictly `createdAt`-sorted list, `earliestJob` returns the head. -/
theorem earliestJob_sorted_head {j : Job} {l : List Job}
    (hs : ∀ k ∈ l, j.createdAt < k.createdAt) :
    earliestJob (j :: l) = some j := by
  cases hl : earliestJob l with
  | none => simp only [earliestJob, hl]
  | some k =>
    have hk := earliestJob_mem hl
    simp only [earliestJob, hl]
    rw [if_pos (le_of_lt (hs k hk))]

/-- A job returned by `findFirstQueuedJob` is a queued ANALYZE_BUG element
of the table. -/
theorem findFirstQueuedJob_spec {js : List Job} {j : Job}
    (h : findFirstQueuedJob js = some j) :
    j ∈ js ∧ j.status = "queued" ∧ j.type = "ANALYZE_BUG" := by
  unfold findFirstQueuedJob at h
  have hmem := earliestJob_mem h
  have hf := List.mem_filter.mp hmem
  refine ⟨hf.1, ?_, ?_⟩
  · have := hf.2
    simp only [Bool.and_eq_true, beq_iff_eq] at this
    exact this.1
  · have := hf.2
    simp only [Bool.and_eq_true, beq_iff_eq] at this
    exact this.2

/-- After `updateJobStatusL js i st`, every row with id `i` has status `st`. -/
theorem updateJobStatusL_status {js : List Job} {i : Nat} {st : String} :
    ∀ j' ∈ updateJobStatusL js i st, j'.id = i → j'.status = st := by
  intro j' hj' hid
  simp only [updateJobStatusL, List.mem_map] at hj'
  obtain ⟨j0, _, rfl⟩ := hj'
  by_cases h : j0.id = i
  · simp [h]
  · rw [if_neg h] at hid ⊢
    exact absurd hid h

/-- After `updateJobErrorL js i msg`, every row with id `i` has status
`error` and the message recorded. -/
theorem updateJobErrorL_spec {js : List Job} {i : Nat} {msg : String} :
    ∀ j' ∈ updateJobErrorL js i msg, j'.id = i →
      j'.status = "error" ∧ j'.error = some msg := by
  intro j' hj' hid
  simp only [updateJobErrorL, List.mem_map] at hj'
  obtain ⟨j0, _, rfl⟩ := hj'
  by_cases h : j0.id = i
  · simp [h]
  · rw [if_neg h] at hid ⊢
    exact absurd hid h

/-- After `updateBugStatusL bs i st`, every row with id `i` has status `st`. -/
theorem updateBugStatusL_status {bs : List Bug} {i : Nat} {st : String} :
    ∀ b ∈ updateBugStatusL bs i st, b.id = i → b.status = st := by
  intro b hb hid
  simp only [updateBugStatusL, List.mem_map] at hb
  obtain ⟨b0, _, rfl⟩ := hb
  by_cases h : b0.id = i
  · simp [h]
  · rw [if_neg h] at hid ⊢
    exact absurd hid h

/-- After the success-path bug write, every row with id `i` carries status
`analyzed` and the provider's results. -/
theorem updateBugAnalyzedL_spec {bs : List Bug} {i : Nat} {r : AnalysisResult} :
    ∀ b ∈ updateBugAnalyzedL bs i r, b.id = i →
      b.status = "analyzed" ∧ b.aiAnalysis = some r.analysis ∧
      b.aiPatchDiff = persistAiPatchDiff r.diff ∧
      b.confidence = some r.confidence ∧ b.aiProvider = some r.provider := by
  intro b hb hid
  simp only [updateBugAnalyzedL, List.mem_map] at hb
  obtain ⟨b0, _, rfl⟩ := hb
  by_cases h : b0.id = i
  · simp [h]
  · rw [if_neg h] at hid ⊢
    exact absurd hid h

/-- Updating a bug row's status preserves every other field; in particular
the catch block's `data: { status: 'error' }` write keeps `aiAnalysis`. -/
theorem updateBugStatusL_keeps_fields {bs : List Bug} {i : Nat} {st : String} :
    ∀ b ∈ updateBugStatusL bs i st, ∃ b0 ∈ bs,
      b.id = b0.id ∧ b.aiAnalysis = b0.aiAnalysis ∧ b.aiPatchDiff = b0.aiPatchDiff ∧
      b.confidence = b0.confidence ∧ b.aiProvider = b0.aiProvider := by
  intro b hb
  simp only [updateBugStatusL, List.mem_map] at hb
  obtain ⟨b0, hb0, rfl⟩ := hb
  refine ⟨b0, hb0, ?_⟩
  by_cases h : b0.id = i <;> simp [h]

/-- An unconditional status update touching no present id is a no-op. -/
theorem updateJobStatusL_not_mem {js : List Job} {i : Nat} {st : String}
    (h : ∀ k ∈ js, k.id ≠ i) : updateJobStatusL js i st = js := by
  induction js with
  | nil => rfl
  | cons a l ih =>
    simp only [updateJobStatusL, List.map_cons]
    rw [if_neg (h a (List.mem_cons_self a l))]
    have : updateJobStatusL l i st = l := ih fun k hk => h k (List.mem_cons_of_mem a hk)
    simp only [updateJobStatusL] at this
    rw [this]

/-- Status updates preserve the multiset of ids (element-wise form). -/
theorem updateJobStatusL_ids {js : List Job} {i : Nat} {st : String} :
    ∀ k' ∈ updateJobStatusL js i st, ∃ k0 ∈ js, k'.id = k0.id := by
  intro k' hk'
  simp only [updateJobStatusL, List.mem_map] at hk'
  obtain ⟨k0, hk0, rfl⟩ := hk'
  refine ⟨k0, hk0, ?_⟩
  by_cases h : k0.id = i <;> simp [h]

/-- A leading non-claimable row is invisible to any number of claim cycles,
provided no other row shares its id. -/
theorem claimSeq_skip (bugs : List Bug) (j' : Job)
    (hnq : ¬(j'.status = "queued" ∧ j'.type = "ANALYZE_BUG")) :
    ∀ (n : Nat) (rest : List Job), (∀ k ∈ rest, k.id ≠ j'.id) →
      claimSeq { bugs := bugs, jobs := j' :: rest } n =
      claimSeq { bugs := bugs, jobs := rest } n := by
  intro n
  induction n with
  | zero => intro rest _; rfl
  | succ m ih =>
    intro rest hid
    have hb : (j'.status == "queued" && j'.type == "ANALYZE_BUG") = false := by
      cases h : (j'.status == "queued" && j'.type == "ANALYZE_BUG") with
      | false => rfl
      | true =>
        simp only [Bool.and_eq_true, beq_iff_eq] at h
        exact absurd h hnq
    have hfq : findFirstQueuedJob (j' :: rest) = findFirstQueuedJob rest := by
      unfold findFirstQueuedJob
      rw [List.filter_cons_of_neg]
      simp [hb]
    cases hr : findFirstQueuedJob rest with
    | none =>
      simp [claimSeq, claimNext, hfq, hr]
    | some k =>
      have hk := findFirstQueuedJob_spec hr
      have hkid : j'.id ≠ k.id := fun h => (hid k hk.1) h.symm
      have hupd : updateJobStatusL (j' :: rest) k.id "processing" =
          j' :: updateJobStatusL rest k.id "processing" := by
        simp only [updateJobStatusL, List.map_cons, if_neg hkid]
      have hrec : ∀ k' ∈ updateJobStatusL rest k.id "processing", k'.id ≠ j'.id := by
        intro k' hk' heq
        obtain ⟨k0, hk0, hide⟩ := updateJobStatusL_ids k' hk'
        exact hid k0 hk0 (hide ▸ heq)
      simp only [claimSeq, claimNext, hfq, hr, hupd]
      exact congrArg (k :: ·) (ih (updateJobStatusL rest k.id "processing") hrec)

/-- Sequential claims drain a strictly `createdAt`-ordered table of queued
ANALYZE_BUG jobs in creation order. -/
theorem claimSeq_fifo : ∀ (js : List Job) (bugs : List Bug),
    List.Pairwise (fun a b => a.createdAt < b.createdAt) js →
    (∀ j ∈ js, j.status = "queued" ∧ j.type = "ANALYZE_BUG") →
    (js.map Job.id).Nodup →
    claimSeq { bugs := bugs, jobs := js } js.length = js := by
  intro js
  induction js with
  | nil => intro bugs _ _ _; rfl
  | cons j rest ih =>
    intro bugs hsorted hq hnodup
    have hfilter : (j :: rest).filter
        (fun k => k.status == "queued" && k.type == "ANALYZE_BUG") = j :: rest := by
      rw [List.filter_eq_self]
      intro a ha
      have := hq a ha
      simp [this.1, this.2]
    have hfst : findFirstQueuedJob (j :: rest) = some j := by
      unfold findFirstQueuedJob
      rw [hfilter]
      exact earliestJob_sorted_head fun k hk => (List.pairwise_cons.mp hsorted).1 k hk
    have hnodup' : j.id ∉ rest.map Job.id ∧ (rest.map Job.id).Nodup := by
      rw [List.map_cons] at hnodup
      exact List.nodup_cons.mp hnodup
    have hids : ∀ k ∈ rest, k.id ≠ j.id := by
      intro k hk heq
      exact hnodup'.1 (heq ▸ List.mem_map_of_mem Job.id hk)
    have hupd : updateJobStatusL (j :: rest) j.id "processing" =
        { j with status := "processing" } :: rest := by
      simp only [updateJobStatusL, List.map_cons, if_pos rfl]
      have : updateJobStatusL rest j.id "processing" = rest :=
        updateJobStatusL_not_mem hids
      simp only [updateJobStatusL] at this
      rw [this]
      simp
    have hnq : ¬({ j with status := "processing" }.status = "queued" ∧
        { j with status := "processing" }.type = "ANALYZE_BUG") := by
      intro hcon
      have h1 : ("processing" : String) = "queued" := hcon.1
      exact absurd h1 (by decide)
    have hskip := claimSeq_skip bugs { j with status := "processing" } hnq
      rest.length rest hids
    simp only [List.length_cons, claimSeq, claimNext, hfst, hupd]
    rw [hskip]
    exact congrArg (j :: ·) (ih bugs (List.pairwise_cons.mp hsorted).2
      (fun k hk => hq k (List.mem_cons_of_mem j hk)) hnodup'.2)

/-- Idempotency path (worker lines 98-106): bug already analyzed with truthy
`aiAnalysis` — only the two job writes happen. -/
theorem processNextJob_idem_eq {s : Store} {job : Job} {bid : Nat} {bug : Bug}
    (ctx : Except String (List String)) (prov : ProviderOutcome)
    (hj : findFirstQueuedJob s.jobs = some job)
    (hp : job.payloadBugId = some bid)
    (hb : findBug s.bugs bid = some bug)
    (hs : bug.status = "analyzed")
    (ha : aiAnalysisTruthy bug) :
    processNextJob s ctx prov allWritesOk =
      ({ s with jobs := updateJobStatusL (updateJobStatusL s.jobs job.id "processing")
                          job.id "done" },
       [Event.jobWrite job.id "processing", Event.jobWrite job.id "done"]) := by
  unfold processNextJob
  simp only [hj, hp, hb, allWritesOk, if_true]
  rw [if_pos ⟨hs, ha⟩]
  simp

/-- Provider-failure path (worker lines 161-186 via the catch): job and bug
are marked error. -/
theorem processNextJob_failure_eq {s : Store} {job : Job} {bid : Nat} {bug : Bug}
    (paths : List String) (msg : String)
    (hj : findFirstQueuedJob s.jobs = some job)
    (hp : job.payloadBugId = some bid)
    (hb : findBug s.bugs bid = some bug)
    (hni : ¬(bug.status = "analyzed" ∧ aiAnalysisTruthy bug)) :
    processNextJob s (Except.ok paths) (ProviderOutcome.failure msg) allWritesOk =
      ({ bugs := updateBugStatusL s.bugs bid "error",
         jobs := updateJobErrorL (updateJobStatusL s.jobs job.id "processing") job.id msg },
       [Event.jobWrite job.id "processing", Event.providerCall,
        Event.jobWrite job.id "error", Event.bugWrite bid "error"]) := by
  unfold processNextJob handleProcessingError
  simp only [hj, hp, hb, allWritesOk, if_true]
  rw [if_neg hni]
  simp

/-- Success path with all writes succeeding (worker lines 134-156): bug
analyzed, then job done. -/
theorem processNextJob_success_eq {s : Store} {job : Job} {bid : Nat} {bug : Bug}
    (paths : List String) (r : AnalysisResult)
    (hj : findFirstQueuedJob s.jobs = some job)
    (hp : job.payloadBugId = some bid)
    (hb : findBug s.bugs bid = some bug)
    (hni : ¬(bug.status = "analyzed" ∧ aiAnalysisTruthy bug)) :
    processNextJob s (Except.ok paths) (ProviderOutcome.success r) allWritesOk =
      ({ bugs := updateBugAnalyzedL s.bugs bid r,
         jobs := updateJobStatusL (updateJobStatusL s.jobs job.id "processing")
                   job.id "done" },
       [Event.jobWrite job.id "processing", Event.providerCall,
        Event.bugWrite bid "analyzed", Event.jobWrite job.id "done"]) := by
  unfold processNextJob
  simp only [hj, hp, hb, allWritesOk, if_true]
  rw [if_neg hni]
  simp

/-- Success path when the final job-done write throws: the catch then marks
the job error and overwrites the bug's status with error (the analysis
fields written a moment earlier survive, the `analyzed` status does not). -/
theorem processNextJob_doneFail_eq {s : Store} {job : Job} {bid : Nat} {bug : Bug}
    (paths : List String) (r : AnalysisResult)
    (hj : findFirstQueuedJob s.jobs = some job)
    (hp : job.payloadBugId = some bid)
    (hb : findBug s.bugs bid = some bug)
    (hni : ¬(bug.status = "analyzed" ∧ aiAnalysisTruthy bug)) :
    processNextJob s (Except.ok paths) (ProviderOutcome.success r)
        { allWritesOk with jobDoneOk := false } =
      ({ bugs := updateBugStatusL (updateBugAnalyzedL s.bugs bid r) bid "error",
         jobs := updateJobErrorL (updateJobStatusL s.jobs job.id "processing")
                   job.id "job done write failed" },
       [Event.jobWrite job.id "processing", Event.providerCall,
        Event.bugWrite bid "analyzed", Event.jobWrite job.id "error",
        Event.bugWrite bid "error"]) := by
  unfold processNextJob handleProcessingError
  simp only [hj, hp, hb, allWritesOk, if_true]
  rw [if_neg hni]
  simp

/-- Context-discovery failure path: the exception reaches the catch without
any provider call; job and bug are marked error. -/
theorem processNextJob_ctxerr_eq {s : Store} {job : Job} {bid : Nat} {bug : Bug}
    (msg : String) (prov : ProviderOutcome)
    (hj : findFirstQueuedJob s.jobs = some job)
    (hp : job.payloadBugId = some bid)
    (hb : findBug s.bugs bid = some bug)
    (hni : ¬(bug.status = "analyzed" ∧ aiAnalysisTruthy bug)) :
    processNextJob s (Except.error msg) prov allWritesOk =
      ({ bugs := updateBugStatusL s.bugs bid "error",
         jobs := updateJobErrorL (updateJobStatusL s.jobs job.id "processing") job.id msg },
       [Event.jobWrite job.id "processing",
        Event.jobWrite job.id "error", Event.bugWrite bid "error"]) := by
  unfold processNextJob handleProcessingError
  simp only [hj, hp, hb, allWritesOk, if_true]
  rw [if_neg hni]
  simp

/-- An empty (or fully non-claimable) queue: the selection returns no row and
the cycle is a no-op. -/
theorem processNextJob_none_eq {s : Store}
    (h : ∀ j ∈ s.jobs, ¬(j.status = "queued" ∧ j.type = "ANALYZE_BUG"))
    (ctx : Except String (List String)) (prov : ProviderOutcome)
    (ws : WriteSchedule) :
    findFirstQueuedJob s.jobs = none ∧ claimNext s = (none, s) ∧
      processNextJob s ctx prov ws = (s, []) := by
  have hf : findFirstQueuedJob s.jobs = none := by
    unfold findFirstQueuedJob
    have : s.jobs.filter (fun j => j.status == "queued" && j.type == "ANALYZE_BUG") = [] := by
      rw [List.filter_eq_nil_iff]
      intro a ha
      have := h a ha
      simp only [Bool.and_eq_true, beq_iff_eq]
      exact this
    rw [this]
    rfl
  refine ⟨hf, ?_, ?_⟩
  · unfold claimNext
    rw [hf]
  · unfold processNextJob
    rw [hf]

/-- Claim C1, evidence of the code bug: the claim operation is written as a
`findFirst` followed by a separate unconditional `update` (worker lines
63-76, despite the comment "Atomically select and mark a job as
processing"), so under the interleaving in which both workers run their
`findFirst` before either runs its `update`, BOTH callers receive the single
queued job and proceed to process it — not exactly one. -/
theorem c1_nonatomic_claim_double_delivery :
    (interleavedClaims demoStore).1 = some job1 ∧
    (interleavedClaims demoStore).2.1 = some job1 := by
  exact ⟨rfl, rfl⟩

/-- Under the same racing interleaving, the conditional update the spec
demands (`conditionalClaimWrite`) hands the job to exactly one caller: the
second caller's guard sees status `processing` and returns none-equivalent. -/
theorem conditionalClaim_exactly_one :
    (interleavedConditionalClaims demoStore).1 = true ∧
    (interleavedConditionalClaims demoStore).2.1 = false := by
  exact ⟨rfl, rfl⟩

/-- Claim C2, counterexample: with the Bug insert succeeding and the Job
insert throwing, the request ends 500 while the Bug row persists with status
queued and the jobs table stays empty — the outcome the claim says cannot
exist.  (The handler issues two separate `create` calls with no surrounding
transaction; the catch block rolls nothing back.) -/
theorem c2_counterexample :
    ((createBugRoute { bugs := [], jobs := [] } "Checkout button unresponsive"
        "http://localhost:3000/checkout" 10 1 0
        { bugCreateOk := true, jobCreateOk := false }).1.bugs.map Bug.status = ["queued"]) ∧
    ((createBugRoute { bugs := [], jobs := [] } "Checkout button unresponsive"
        "http://localhost:3000/checkout" 10 1 0
        { bugCreateOk := true, jobCreateOk := false }).1.jobs = []) ∧
    ((createBugRoute { bugs := [], jobs := [] } "Checkout button unresponsive"
        "http://localhost:3000/checkout" 10 1 0
        { bugCreateOk := true, jobCreateOk := false }).2 = 500) := by
  exact ⟨rfl, rfl, rfl⟩

/-- Claim C2, amended: a fully successful submission creates the Bug and its
one ANALYZE_BUG Job (payload carrying the Bug's id) and answers 201; but the
two inserts are separate writes, Bug first, with no transaction — if the Job
insert fails the request answers 500 and the Bug remains, queued, with the
jobs table untouched. -/
theorem c2_two_separate_writes (s : Store) (title url : String) (bid jid now : Nat) :
    (createBugRoute s title url bid jid now { bugCreateOk := true, jobCreateOk := true } =
      ({ bugs := s.bugs ++
                 [{ id := bid, title := title, url := url, status := "queued",
                    aiAnalysis := none, aiPatchDiff := none, confidence := none,
                    aiProvider := none, createdAt := now }],
         jobs := s.jobs ++
                 [{ id := jid, type := "ANALYZE_BUG", payloadBugId := some bid,
                    status := "queued", error := none, createdAt := now }] }, 201)) ∧
    (createBugRoute s title url bid jid now { bugCreateOk := true, jobCreateOk := false } =
      ({ bugs := s.bugs ++
                 [{ id := bid, title := title, url := url, status := "queued",
                    aiAnalysis := none, aiPatchDiff := none, confidence := none,
                    aiProvider := none, createdAt := now }],
         jobs := s.jobs }, 500)) := by
  exact ⟨rfl, rfl⟩

/-- Claim C5, counterexample: the fail write of the catch block is an
unconditional update by id; applied to a Job that has already reached `done`
it sets the status to `error`, reverting the supposedly terminal state
instead of being rejected or ignored. -/
theorem c5_counterexample :
    doneJob.status = "done" ∧
    updateJobErrorL [doneJob] 1 "boom" =
      [{ doneJob with status := "error", error := some "boom" }] := by
  exact ⟨rfl, rfl⟩

/-- Claim C5, amended: the claim operation only ever selects a `queued` Job
(so claiming realizes only queued→processing), and completing an
already-done Job is a no-op in effect (re-writing `done` leaves every row
unchanged); but the complete/fail writes carry no transition guard — the
fail write applied to a Job with id `i` sets it to `error` whatever its
current status, so a `done` Job is reverted rather than the transition being
rejected or ignored. -/
theorem c5_transition_guards :
    (∀ (js : List Job) (j : Job), findFirstQueuedJob js = some j →
      j.status = "queued" ∧ j.type = "ANALYZE_BUG") ∧
    (∀ (js : List Job) (i : Nat), (∀ j ∈ js, j.id = i → j.status = "done") →
      updateJobStatusL js i "done" = js) ∧
    (∀ (js : List Job) (i : Nat) (msg : String),
      ∀ j' ∈ updateJobErrorL js i msg, j'.id = i →
        j'.status = "error" ∧ j'.error = some msg) := by
  refine ⟨?_, ?_, ?_⟩
  · intro js j h
    exact (findFirstQueuedJob_spec h).2
  · intro js i h
    induction js with
    | nil => rfl
    | cons a l ih =>
      simp only [updateJobStatusL, List.map_cons]
      have ha : (if a.id = i then { a with status := "done" } else a) = a := by
        by_cases hcase : a.id = i
        · rw [if_pos hcase]
          have := h a (List.mem_cons_self a l) hcase
          cases a
          simp_all
        · rw [if_neg hcase]
      rw [ha]
      have := ih fun j hj hid => h j (List.mem_cons_of_mem a hj) hid
      simp only [updateJobStatusL] at this
      rw [this]
  · intro js i msg
    exact updateJobErrorL_spec

/-- Witness for `c5_transition_guards` at concrete inputs. -/
theorem c5_transition_guards_witness :
    (job1.status = "queued" ∧ job1.type = "ANALYZE_BUG") ∧
    updateJobStatusL [doneJob] 1 "done" = [doneJob] ∧
    ({ doneJob with status := "error", error := some "boom" }).status = "error" ∧
    ({ doneJob with status := "error", error := some "boom" }).error = some "boom" := by
  refine ⟨c5_transition_guards.1 [job1] job1 (by decide), ?_, ?_⟩
  · exact c5_transition_guards.2.1 [doneJob] 1 (by decide)
  · exact c5_transition_guards.2.2 [doneJob] 1 "boom"
      { doneJob with status := "error", error := some "boom" } (by decide) rfl

/-- Claim C3: when the claimed Job's Bug is already `analyzed` with truthy
(non-empty) `aiAnalysis`, the cycle performs exactly the claim write and the
job-done write — the provider is never invoked and no field of any Bug row
changes. -/
theorem c3_idempotent_skip (s : Store) (job : Job) (bid : Nat) (bug : Bug)
    (ctx : Except String (List String)) (prov : ProviderOutcome)
    (hj : findFirstQueuedJob s.jobs = some job)
    (hp : job.payloadBugId = some bid)
    (hb : findBug s.bugs bid = some bug)
    (hs : bug.status = "analyzed")
    (ha : aiAnalysisTruthy bug) :
    (processNextJob s ctx prov allWritesOk).2 =
      [Event.jobWrite job.id "processing", Event.jobWrite job.id "done"] ∧
    Event.providerCall ∉ (processNextJob s ctx prov allWritesOk).2 ∧
    (processNextJob s ctx prov allWritesOk).1.bugs = s.bugs ∧
    (∀ j' ∈ (processNextJob s ctx prov allWritesOk).1.jobs,
      j'.id = job.id → j'.status = "done") := by
  rw [processNextJob_idem_eq ctx prov hj hp hb hs ha]
  refine ⟨rfl, by simp, rfl, ?_⟩
  intro j' hj' hid
  exact updateJobStatusL_status j' hj' hid

/-- Witness for `c3_idempotent_skip`: the already-analyzed bug 10 with its
queued job 1. -/
theorem c3_idempotent_skip_witness :
    (processNextJob idemStore (Except.ok []) (ProviderOutcome.success stubResult)
        allWritesOk).2 =
      [Event.jobWrite job1.id "processing", Event.jobWrite job1.id "done"] ∧
    Event.providerCall ∉ (processNextJob idemStore (Except.ok [])
        (ProviderOutcome.success stubResult) allWritesOk).2 ∧
    (processNextJob idemStore (Except.ok []) (ProviderOutcome.success stubResult)
        allWritesOk).1.bugs = idemStore.bugs ∧
    (∀ j' ∈ (processNextJob idemStore (Except.ok [])
        (ProviderOutcome.success stubResult) allWritesOk).1.jobs,
      j'.id = job1.id → j'.status = "done") :=
  c3_idempotent_skip idemStore job1 10 analyzedBug (Except.ok [])
    (ProviderOutcome.success stubResult) rfl rfl rfl rfl (by decide)

/-- Claim C4: when the provider call fails, the catch marks the Job `error`
with the provider's message recorded on its error field and the Bug `error`;
afterwards no claim can return that Job again, since claiming only selects
`queued` rows. -/
theorem c4_provider_failure (s : Store) (job : Job) (bid : Nat) (bug : Bug)
    (paths : List String) (msg : String)
    (hj : findFirstQueuedJob s.jobs = some job)
    (hp : job.payloadBugId = some bid)
    (hb : findBug s.bugs bid = some bug)
    (hni : ¬(bug.status = "analyzed" ∧ aiAnalysisTruthy bug)) :
    (processNextJob s (Except.ok paths) (ProviderOutcome.failure msg) allWritesOk).2 =
      [Event.jobWrite job.id "processing", Event.providerCall,
       Event.jobWrite job.id "error", Event.bugWrite bid "error"] ∧
    (∀ j' ∈ (processNextJob s (Except.ok paths) (ProviderOutcome.failure msg)
        allWritesOk).1.jobs,
      j'.id = job.id → j'.status = "error" ∧ j'.error = some msg) ∧
    (∀ b ∈ (processNextJob s (Except.ok paths) (ProviderOutcome.failure msg)
        allWritesOk).1.bugs,
      b.id = bid → b.status = "error") ∧
    (∀ j', findFirstQueuedJob (processNextJob s (Except.ok paths)
        (ProviderOutcome.failure msg) allWritesOk).1.jobs = some j' →
      j'.id ≠ job.id) := by
  rw [processNextJob_failure_eq paths msg hj hp hb hni]
  refine ⟨rfl, ?_, ?_, ?_⟩
  · intro j' hj' hid
    exact updateJobErrorL_spec j' hj' hid
  · intro b hbm hid
    exact updateBugStatusL_status b hbm hid
  · intro j' hcl heq
    have hspec := findFirstQueuedJob_spec hcl
    have herr := updateJobErrorL_spec j' hspec.1 heq
    exact absurd (herr.1.symm.trans hspec.2.1) (by decide)

/-- Witness for `c4_provider_failure`: bug 10, job 1, provider throws a
timeout. -/
theorem c4_provider_failure_witness :
    (processNextJob demoStore (Except.ok []) (ProviderOutcome.failure "timeout")
        allWritesOk).2 =
      [Event.jobWrite job1.id "processing", Event.providerCall,
       Event.jobWrite job1.id "error", Event.bugWrite 10 "error"] ∧
    (∀ j' ∈ (processNextJob demoStore (Except.ok [])
        (ProviderOutcome.failure "timeout") allWritesOk).1.jobs,
      j'.id = job1.id → j'.status = "error" ∧ j'.error = some "timeout") ∧
    (∀ b ∈ (processNextJob demoStore (Except.ok [])
        (ProviderOutcome.failure "timeout") allWritesOk).1.bugs,
      b.id = 10 → b.status = "error") ∧
    (∀ j', findFirstQueuedJob (processNextJob demoStore (Except.ok [])
        (ProviderOutcome.failure "timeout") allWritesOk).1.jobs = some j' →
      j'.id ≠ job1.id) :=
  c4_provider_failure demoStore job1 10 bug10 [] "timeout" rfl rfl rfl (by decide)

/-- Claim C6, counterexample: provider success, bug-analyzed write succeeds,
then the job-done write fails — the catch does NOT leave the Job dangling in
`processing` with its Bug `analyzed`; it marks both `error` (the Bug keeps
the aiAnalysis text but loses the `analyzed` status). -/
theorem c6_counterexample :
    ((processNextJob demoStore (Except.ok []) (ProviderOutcome.success stubResult)
        { allWritesOk with jobDoneOk := false }).1.bugs.map Bug.status = ["error"]) ∧
    ((processNextJob demoStore (Except.ok []) (ProviderOutcome.success stubResult)
        { allWritesOk with jobDoneOk := false }).1.jobs.map Job.status = ["error"]) ∧
    ((processNextJob demoStore (Except.ok []) (ProviderOutcome.success stubResult)
        { allWritesOk with jobDoneOk := false }).1.bugs.map Bug.aiAnalysis =
      [some "ok"]) := by
  exact ⟨rfl, rfl, rfl⟩

/-- Claim C6, amended: in the success path the Bug write (status `analyzed`,
aiAnalysis set to the provider's analysis) strictly precedes the job-done
write in the cycle's trace, and when the Job is marked done the Bug carries
status `analyzed` with `aiAnalysis = some r.analysis`; but if the job-done
write fails, the catch handler marks both Job and Bug `error` — the Bug
keeps the written aiAnalysis text yet does not retain status `analyzed`, and
the Job does not stay `processing`. -/
theorem c6_bug_write_precedes_job_done (s : Store) (job : Job) (bid : Nat) (bug : Bug)
    (paths : List String) (r : AnalysisResult)
    (hj : findFirstQueuedJob s.jobs = some job)
    (hp : job.payloadBugId = some bid)
    (hb : findBug s.bugs bid = some bug)
    (hni : ¬(bug.status = "analyzed" ∧ aiAnalysisTruthy bug)) :
    (processNextJob s (Except.ok paths) (ProviderOutcome.success r) allWritesOk).2 =
      [Event.jobWrite job.id "processing", Event.providerCall,
       Event.bugWrite bid "analyzed", Event.jobWrite job.id "done"] ∧
    (∀ b ∈ (processNextJob s (Except.ok paths) (ProviderOutcome.success r)
        allWritesOk).1.bugs,
      b.id = bid → b.status = "analyzed" ∧ b.aiAnalysis = some r.analysis) ∧
    (∀ j' ∈ (processNextJob s (Except.ok paths) (ProviderOutcome.success r)
        allWritesOk).1.jobs,
      j'.id = job.id → j'.status = "done") ∧
    (∀ b ∈ (processNextJob s (Except.ok paths) (ProviderOutcome.success r)
        { allWritesOk with jobDoneOk := false }).1.bugs,
      b.id = bid → b.status = "error" ∧ b.aiAnalysis = some r.analysis) ∧
    (∀ j' ∈ (processNextJob s (Except.ok paths) (ProviderOutcome.success r)
        { allWritesOk with jobDoneOk := false }).1.jobs,
      j'.id = job.id → j'.status = "error") := by
  rw [processNextJob_success_eq paths r hj hp hb hni,
      processNextJob_doneFail_eq paths r hj hp hb hni]
  refine ⟨rfl, ?_, ?_, ?_, ?_⟩
  · intro b hbm hid
    have := updateBugAnalyzedL_spec b hbm hid
    exact ⟨this.1, this.2.1⟩
  · intro j' hj' hid
    exact updateJobStatusL_status j' hj' hid
  · intro b hbm hid
    refine ⟨updateBugStatusL_status b hbm hid, ?_⟩
    obtain ⟨b0, hb0, hbid, hai, _⟩ := updateBugStatusL_keeps_fields b hbm
    have := updateBugAnalyzedL_spec b0 hb0 (hbid ▸ hid)
    exact hai.trans this.2.1
  · intro j' hj' hid
    exact (updateJobErrorL_spec j' hj' hid).1

/-- Witness for `c6_bug_write_precedes_job_done`: bug 10, job 1, stub
provider success. -/
theorem c6_bug_write_precedes_job_done_witness :
    (processNextJob demoStore (Except.ok []) (ProviderOutcome.success stubResult)
        allWritesOk).2 =
      [Event.jobWrite job1.id "processing", Event.providerCall,
       Event.bugWrite 10 "analyzed", Event.jobWrite job1.id "done"] ∧
    (∀ b ∈ (processNextJob demoStore (Except.ok [])
        (ProviderOutcome.success stubResult) allWritesOk).1.bugs,
      b.id = 10 → b.status = "analyzed" ∧ b.aiAnalysis = some stubResult.analysis) ∧
    (∀ j' ∈ (processNextJob demoStore (Except.ok [])
        (ProviderOutcome.success stubResult) allWritesOk).1.jobs,
      j'.id = job1.id → j'.status = "done") ∧
    (∀ b ∈ (processNextJob demoStore (Except.ok [])
        (ProviderOutcome.success stubResult)
        { allWritesOk with jobDoneOk := false }).1.bugs,
      b.id = 10 → b.status = "error" ∧ b.aiAnalysis = some stubResult.analysis) ∧
    (∀ j' ∈ (processNextJob demoStore (Except.ok [])
        (ProviderOutcome.success stubResult)
        { allWritesOk with jobDoneOk := false }).1.jobs,
      j'.id = job1.id → j'.status = "error") :=
  c6_bug_write_precedes_job_done demoStore job1 10 bug10 [] stubResult
    rfl rfl rfl (by decide)

/-- Claim C7, counterexample: `new URL(bugUrl)` sits outside the try/catch
of `discoverCodeContext`, so an invalid bug URL propagates an exception out
of context discovery; the pipeline calls it unguarded, so the catch marks
Job and Bug `error` and the provider is never reached — a context-discovery
failure that does fail the pipeline. -/
theorem c7_counterexample :
    discoverCodeContext (Except.error "Invalid URL: not-a-url") (Except.ok []) =
      Except.error "Invalid URL: not-a-url" ∧
    ((processNextJob demoStore (Except.error "Invalid URL: not-a-url")
        (ProviderOutcome.success stubResult) allWritesOk).1.bugs.map Bug.status =
      ["error"]) ∧
    ((processNextJob demoStore (Except.error "Invalid URL: not-a-url")
        (ProviderOutcome.success stubResult) allWritesOk).1.jobs.map Job.status =
      ["error"]) ∧
    Event.providerCall ∉ (processNextJob demoStore (Except.error "Invalid URL: not-a-url")
        (ProviderOutcome.success stubResult) allWritesOk).2 := by
  refine ⟨rfl, rfl, rfl, by decide⟩

/-- Claim C7, amended: errors thrown inside the directory walk are caught by
`discoverCodeContext` and degrade to an empty context list, and the pipeline
then proceeds to the provider call and completes normally; only a failure of
the `new URL(bugUrl)` parse itself (outside the try/catch) escapes and fails
the pipeline. -/
theorem c7_walk_errors_degrade :
    (∀ (segs : List String) (e : String),
      discoverCodeContext (Except.ok segs) (Except.error e) = Except.ok []) ∧
    (∀ (s : Store) (job : Job) (bid : Nat) (bug : Bug) (r : AnalysisResult),
      findFirstQueuedJob s.jobs = some job →
      job.payloadBugId = some bid →
      findBug s.bugs bid = some bug →
      ¬(bug.status = "analyzed" ∧ aiAnalysisTruthy bug) →
      Event.providerCall ∈ (processNextJob s (Except.ok [])
          (ProviderOutcome.success r) allWritesOk).2 ∧
      (∀ b ∈ (processNextJob s (Except.ok [])
          (ProviderOutcome.success r) allWritesOk).1.bugs,
        b.id = bid → b.status = "analyzed")) := by
  refine ⟨fun segs e => rfl, ?_⟩
  intro s job bid bug r hj hp hb hni
  rw [processNextJob_success_eq [] r hj hp hb hni]
  refine ⟨by simp, ?_⟩
  intro b hbm hid
  exact (updateBugAnalyzedL_spec b hbm hid).1

/-- Witness for `c7_walk_errors_degrade`: a permission error in the walk
degrades to the empty context, and the pipeline still reaches the provider
for bug 10 / job 1. -/
theorem c7_walk_errors_degrade_witness :
    discoverCodeContext (Except.ok ["checkout"]) (Except.error "EACCES") =
      Except.ok [] ∧
    Event.providerCall ∈ (processNextJob demoStore (Except.ok [])
        (ProviderOutcome.success stubResult) allWritesOk).2 :=
  ⟨c7_walk_errors_degrade.1 ["checkout"] "EACCES",
   (c7_walk_errors_degrade.2 demoStore job1 10 bug10 stubResult
     rfl rfl rfl (by decide)).1⟩

/-- Claim C8: over a table of queued ANALYZE_BUG jobs with strictly
increasing creation times and distinct ids, sequential claims hand the jobs
out in creation order (first-in-first-out); and when no claimable job
exists, the claim returns an empty result and the cycle is a no-op rather
than an error. -/
theorem c8_fifo_and_empty :
    (∀ (js : List Job) (bugs : List Bug),
      List.Pairwise (fun a b => a.createdAt < b.createdAt) js →
      (∀ j ∈ js, j.status = "queued" ∧ j.type = "ANALYZE_BUG") →
      (js.map Job.id).Nodup →
      claimSeq { bugs := bugs, jobs := js } js.length = js) ∧
    (∀ (s : Store) (ctx : Except String (List String)) (prov : ProviderOutcome)
        (ws : WriteSchedule),
      (∀ j ∈ s.jobs, ¬(j.status = "queued" ∧ j.type = "ANALYZE_BUG")) →
      claimNext s = (none, s) ∧ processNextJob s ctx prov ws = (s, [])) := by
  refine ⟨fun js bugs h1 h2 h3 => claimSeq_fifo js bugs h1 h2 h3, ?_⟩
  intro s ctx prov ws h
  have := processNextJob_none_eq h ctx prov ws
  exact ⟨this.2.1, this.2.2⟩

/-- Witness for `c8_fifo_and_empty`: two queued jobs created at times 1 < 2
are claimed in that order; an empty table yields a no-op cycle. -/
theorem c8_fifo_and_empty_witness :
    claimSeq { bugs := [], jobs := [jobA, jobB] } 2 = [jobA, jobB] ∧
    claimNext { bugs := [], jobs := [] } = (none, { bugs := [], jobs := [] }) ∧
    processNextJob { bugs := [], jobs := [] } (Except.ok [])
      (ProviderOutcome.failure "x") allWritesOk = ({ bugs := [], jobs := [] }, []) := by
  refine ⟨?_, ?_, ?_⟩
  · exact c8_fifo_and_empty.1 [jobA, jobB] [] (by decide) (by decide) (by decide)
  · exact (c8_fifo_and_empty.2 { bugs := [], jobs := [] } (Except.ok [])
      (ProviderOutcome.failure "x") allWritesOk (by simp)).1
  · exact (c8_fifo_and_empty.2 { bugs := [], jobs := [] } (Except.ok [])
      (ProviderOutcome.failure "x") allWritesOk (by simp)).2

/-- Claim C9: whatever the extracted confidence section parses to, the
confidence produced by `parseResponse` lies in [0.1, 1.0]; values above 1
are divided by 100 first, a missing/NaN value defaults to 0.5, and the final
value is clamped; in particular 1.5, -0.2 and 85 normalize into the range. -/
theorem c9_confidence_clamped :
    (∀ (content : String) (am pm : Option String) (cv : Option ℚ),
      1 / 10 ≤ (parseResponse content am pm cv).confidence ∧
      (parseResponse content am pm cv).confidence ≤ 1) ∧
    (parseResponse "" none none (some (3 / 2))).confidence = 1 / 10 ∧
    (parseResponse "" none none (some (-(1 / 5)))).confidence = 1 / 10 ∧
    (parseResponse "" none none (some 85)).confidence = 17 / 20 ∧
    (parseResponse "" none none none).confidence = 1 / 2 := by
  refine ⟨?_, ?_, ?_, ?_, ?_⟩
  · intro content am pm cv
    unfold parseResponse
    exact ⟨le_max_left _ _, max_le (by norm_num) (min_le_left _ _)⟩
  · norm_num [parseResponse, min_def, max_def]
  · norm_num [parseResponse, min_def, max_def]
  · norm_num [parseResponse, min_def, max_def]
  · norm_num [parseResponse, min_def, max_def]

/-- Claim C10: a patch section equal to "none" in any letter case is turned
into the sentinel `NONE` by `parseResponse` and persisted as null by the
worker's `persistAiPatchDiff`; any other non-empty patch string flows
through both stages verbatim. -/
theorem c10_diff_none_normalization (content : String) (am : Option String)
    (cv : Option ℚ) (p : String) :
    (strToLower p = "none" →
      persistAiPatchDiff (parseResponse content am (some p) cv).diff = none) ∧
    (strToLower p ≠ "none" → p ≠ "" →
      persistAiPatchDiff (parseResponse content am (some p) cv).diff = some p) := by
  constructor
  · intro hl
    have hcond : ¬(strToLower p ≠ "none" ∧ 0 < p.length) := fun hc => hc.1 hl
    dsimp only [parseResponse]
    rw [if_neg hcond]
    rw [if_neg (by decide : ¬("NONE" : String) = "")]
    unfold persistAiPatchDiff
    rw [if_pos rfl]
  · intro hl hp
    have hlen : 0 < p.length := by
      cases p with
      | mk data =>
        cases data with
        | nil => exact absurd rfl hp
        | cons c cs => simp [String.length]
    have hpn : p ≠ "NONE" := by
      intro hcase
      exact hl (by rw [hcase]; rfl)
    have hcond : strToLower p ≠ "none" ∧ 0 < p.length := ⟨hl, hlen⟩
    dsimp only [parseResponse]
    rw [if_pos hcond]
    rw [if_neg hp]
    unfold persistAiPatchDiff
    rw [if_neg hpn]

/-- Witness for `c10_diff_none_normalization`: "NoNe" persists as null, a
real diff string persists verbatim. -/
theorem c10_diff_none_normalization_witness :
    persistAiPatchDiff (parseResponse "raw" none (some "NoNe") none).diff = none ∧
    persistAiPatchDiff (parseResponse "raw" none (some "@@ -1 +1 @@") none).diff =
      some "@@ -1 +1 @@" :=
  ⟨(c10_diff_none_normalization "raw" none none "NoNe").1 (by rfl),
   (c10_diff_none_normalization "raw" none none "@@ -1 +1 @@").2
     (by decide) (by decide)⟩
